import Mathlib

/-!
Shallow embedding of the nanolens capture/analysis/edit session controller
(src/App.tsx, src/types.ts): the data model, the controller operations with
their asynchronous settlement outcomes made explicit, and the client-call
traces each operation issues.  JavaScript string operations are embedded at
the character-list level with the same semantics (split on a comma, trim of
surrounding whitespace, truthiness of a possibly absent string).
-/

namespace NanoLens

/-- types.ts, AnalysisResult: optional description and optional bullet points. -/
structure AnalysisResult where
  description : Option String := none
  points : Option (List String) := none
deriving DecidableEq

/-- types.ts, EditResult: optional edited-image base64 data and optional text response. -/
structure EditResult where
  imageData : Option String := none
  textResponse : Option String := none
deriving DecidableEq

/-- types.ts, AppState enum. -/
inductive AppState where
  | IDLE
  | RECORDING
  | ANALYZING
  | VIEWING
  | EDITING
  | ERROR
deriving DecidableEq

/-- types.ts, CaptureMode enum. -/
inductive CaptureMode where
  | PHOTO
  | VIDEO
deriving DecidableEq

/-- types.ts, the media type of an ImageFile: image or video. -/
inductive MediaKind where
  | image
  | video
deriving DecidableEq

/-- types.ts, ImageFile: a captured unit (HistoryItem is an alias of it). -/
structure ImageFile where
  id : String
  preview : String
  raw : String
  mimeType : String
  timestamp : Nat
  type : MediaKind
  analysis : Option AnalysisResult := none
deriving DecidableEq

abbrev HistoryItem := ImageFile

/-- JavaScript truthiness of a nullable string: true exactly when present and non-empty. -/
def strTruthy : Option String → Bool
  | none => false
  | some s => !s.data.isEmpty

/-- JavaScript s.split with a one-character separator, at the character-list level:
every occurrence of the comma separates fields. -/
def jsSplitComma (s : String) : List String :=
  (List.splitOnP (fun c => c == ',') s.data).map (fun l => String.mk l)

/-- JavaScript s.split(",")[1] as used on data URLs, totalised with the empty string
when no comma is present. -/
def jsSplitCommaSecond (s : String) : String :=
  (jsSplitComma s).getD 1 ""

/-- JavaScript s.trim(): remove whitespace from both ends. -/
def jsTrim (s : String) : String :=
  String.mk (((s.data.dropWhile Char.isWhitespace).reverse.dropWhile Char.isWhitespace).reverse)

/-- The calls the controller issues against the remote AnalysisClient
(services/geminiService): analyzeImage, analyzeVideo, editImage. -/
inductive ClientCall where
  | analyzeImage (raw mimeType : String)
  | analyzeVideo (raw mimeType : String)
  | editImage (raw mimeType instruction : String)
deriving DecidableEq

/-- The React state of App relevant to the session controller:
appState, currentFile, editPrompt, editedImage, error, history. -/
structure Model where
  appState : AppState
  currentFile : Option ImageFile
  editPrompt : String
  editedImage : Option String
  error : Option String
  history : List HistoryItem
deriving DecidableEq

/-- App.tsx line 575: the viewing screen renders editedImage when truthy,
otherwise the preview of the current file. -/
def displayedImage (m : Model) : Option String :=
  if strTruthy m.editedImage then m.editedImage else m.currentFile.map ImageFile.preview

/-- App.tsx addToHistory (lines 300 to 302): insert at the front and keep
the first 50 entries. -/
def addToHistory (item : HistoryItem) (prev : List HistoryItem) : List HistoryItem :=
  (item :: prev).take 50

/-- App.tsx performAnalysis (lines 285 to 298), from entering ANALYZING through the
settlement of the awaited analyzeImage call: on success the analysis is attached to
the file, the enriched file becomes current and is committed to history, and the
state becomes VIEWING; on failure the error is set and the state becomes VIEWING.
Returns the resulting model and the list of client calls issued. -/
def performAnalysis (m : Model) (file : ImageFile) (outcome : Except Unit AnalysisResult) :
    Model × List ClientCall :=
  let call := ClientCall.analyzeImage file.raw file.mimeType
  match outcome with
  | Except.ok result =>
      let fileWithAnalysis := { file with analysis := some result }
      ({ m with currentFile := some fileWithAnalysis,
                history := addToHistory fileWithAnalysis m.history,
                appState := AppState.VIEWING }, [call])
  | Except.error _ =>
      ({ m with error := some "Could not analyze image.",
                appState := AppState.VIEWING }, [call])

/-- App.tsx capturePhoto (lines 160 to 184), the constructed ImageFile: the preview is
the canvas data URL, the raw payload is its part after the comma, the mime type is
image/jpeg, the type is image, and no analysis is attached yet.  The identifier and
timestamp come from the clock and are parameters here. -/
def mkCapturedPhoto (idStr base64String : String) (now : Nat) : ImageFile :=
  { id := idStr
    preview := base64String
    raw := jsSplitCommaSecond base64String
    mimeType := "image/jpeg"
    timestamp := now
    type := MediaKind.image
    analysis := none }

/-- App.tsx capturePhoto: set the fresh file as current, then run performAnalysis on it. -/
def capturePhoto (m : Model) (idStr base64String : String) (now : Nat)
    (outcome : Except Unit AnalysisResult) : Model × List ClientCall :=
  let newFile := mkCapturedPhoto idStr base64String now
  performAnalysis { m with currentFile := some newFile } newFile outcome

/-- App.tsx restoreHistoryItem (lines 309 to 315): the record becomes the current file,
the edited image and the edit prompt are cleared, and the state becomes VIEWING.
No client call is issued and the history is untouched. -/
def restoreHistoryItem (m : Model) (item : HistoryItem) : Model × List ClientCall :=
  ({ m with currentFile := some item,
            editedImage := none,
            editPrompt := "",
            appState := AppState.VIEWING }, [])

/-- App.tsx resetApp (lines 400 to 407): clears the current file, the edited image and
the edit prompt, and returns to IDLE. -/
def resetApp (m : Model) : Model :=
  { m with currentFile := none,
           editedImage := none,
           editPrompt := "",
           appState := AppState.IDLE }

/-- App.tsx handleEditSubmit (lines 317 to 341), from the guard through the settlement
of the awaited editImage call.  Guard: no current file, an all-whitespace prompt, or a
video file returns without any call.  Otherwise the source payload is the part after
the comma of the edited image when one is truthy, else the raw payload of the current
file; the call declares mime type image/png.  On settlement: truthy imageData replaces
the edited image (as a png data URL) and clears the prompt; otherwise a truthy
textResponse, or neither, or a failure sets the error; the state always ends VIEWING. -/
def handleEditSubmit (m : Model) (outcome : Except Unit EditResult) :
    Model × List ClientCall :=
  match m.currentFile with
  | none => (m, [])
  | some file =>
    if (jsTrim m.editPrompt).data.isEmpty || file.type == MediaKind.video then (m, [])
    else
      let sourceImageRaw :=
        if strTruthy m.editedImage then jsSplitCommaSecond (m.editedImage.getD "")
        else file.raw
      let call := ClientCall.editImage sourceImageRaw "image/png" m.editPrompt
      let m1 := { m with error := none }
      let m2 :=
        match outcome with
        | Except.ok result =>
            if strTruthy result.imageData then
              { m1 with editedImage :=
                          some ("data:image/png;base64," ++ result.imageData.getD ""),
                        editPrompt := "" }
            else if strTruthy result.textResponse then
              { m1 with error := result.textResponse }
            else
              { m1 with error := some "No changes generated." }
        | Except.error _ => { m1 with error := some "Failed to edit image." }
      ({ m2 with appState := AppState.VIEWING }, [call])

/-- App.tsx lines 620 to 627: the edit input and submit button are disabled when the
trimmed prompt is empty or the state is already EDITING, so the form can only be
submitted when this gate is open. -/
def editSubmitEnabled (m : Model) : Bool :=
  !(jsTrim m.editPrompt).data.isEmpty && !(m.appState == AppState.EDITING)

/-- The user-level edit submission: the form submit fires handleEditSubmit only
when the submit controls are enabled. -/
def submitEdit (m : Model) (outcome : Except Unit EditResult) : Model × List ClientCall :=
  if editSubmitEnabled m then handleEditSubmit m outcome else (m, [])

/-- App.tsx history load effect (lines 51 to 60): the initial history is empty; when
the stored value is truthy and parses, the parsed sequence is installed; a parse
failure is caught and leaves the empty history.  JSON.parse is a host primitive and
is a parameter. -/
def loadHistory (parseJson : String → Option (List HistoryItem))
    (saved : Option String) : List HistoryItem :=
  if strTruthy saved then
    match parseJson (saved.getD "") with
    | some h => h
    | none => []
  else []

/-- The recording-related state of App: the appState, whether the video element holds
a live source stream, whether mediaRecorderRef holds a recorder, how many recorders
have been created and started, and how many stop requests were delivered. -/
structure RecModel where
  appState : AppState
  hasStream : Bool
  hasRecorder : Bool
  recordersStarted : Nat
  stopsRequested : Nat
deriving DecidableEq

/-- The recording-state misuse error named by the spec.  No operation in src
constructs it. -/
inductive RecError where
  | InvalidRecordingState
deriving DecidableEq

/-- App.tsx startRecording (lines 186 to 234): returns silently when the video
element has no source stream; otherwise it unconditionally creates a new
MediaRecorder, starts it, and sets the state to RECORDING.  The current state is not
checked and no error result exists. -/
def startRecording (m : RecModel) : RecModel × Option RecError :=
  if m.hasStream then
    ({ m with hasRecorder := true,
              recordersStarted := m.recordersStarted + 1,
              appState := AppState.RECORDING }, none)
  else (m, none)

/-- App.tsx stopRecording (lines 236 to 241): a recorder stop is requested only when
a recorder exists and the state is RECORDING; otherwise nothing happens.  In neither
case is any error produced. -/
def stopRecording (m : RecModel) : RecModel × Option RecError :=
  if m.hasRecorder && m.appState == AppState.RECORDING then
    ({ m with stopsRequested := m.stopsRequested + 1 }, none)
  else (m, none)

/-- App.tsx handleCapture (lines 148 to 158), the video arm: from IDLE it starts
recording, from RECORDING it stops recording, and from any other state it does
nothing. -/
def handleCaptureVideo (m : RecModel) : RecModel × Option RecError :=
  if m.appState == AppState.IDLE then startRecording m
  else if m.appState == AppState.RECORDING then stopRecording m
  else (m, none)

/-- App.tsx camera management effect (lines 68 to 130), the device-holding outcome
once the effect has responded to the current appState: the dispatch acquires the
camera only when the state is IDLE; in every other state the effect body stops the
video track, and the React cleanup that runs on every appState change stops all
tracks of the previously acquired stream.  So after the effect settles, the device is
held exactly when the state is IDLE and acquisition succeeded. -/
def cameraHeldAfterEffect (s : AppState) (acquireOk : Bool) : Bool :=
  if s == AppState.IDLE then acquireOk else false

/-- App.tsx line 72, the internal guard of startCamera: it is willing to run in both
IDLE and RECORDING, returning early only in the remaining states. -/
def startCameraGuardAllows (s : AppState) : Bool :=
  !(s != AppState.IDLE && s != AppState.RECORDING)

/-- A concrete image file, used by the witnesses. -/
def f0 : ImageFile :=
  { id := "1"
    preview := "data:image/jpeg;base64,QUJD"
    raw := "QUJD"
    mimeType := "image/jpeg"
    timestamp := 0
    type := MediaKind.image
    analysis := none }

/-- A concrete idle model with empty history, used by the witnesses. -/
def m0 : Model :=
  { appState := AppState.IDLE
    currentFile := none
    editPrompt := ""
    editedImage := none
    error := none
    history := [] }

/-- A concrete viewing model holding f0 and a pending edit prompt, used by the
witnesses. -/
def mView : Model :=
  { appState := AppState.VIEWING
    currentFile := some f0
    editPrompt := "make it blue"
    editedImage := none
    error := none
    history := [f0] }

/-- A concrete model with an edit outstanding, used by the witnesses. -/
def mEditing : Model :=
  { mView with appState := AppState.EDITING }

/-- A concrete parse function standing in for JSON.parse, used by the witnesses. -/
def parse0 : String → Option (List HistoryItem) :=
  fun s => if s = "ok" then some [f0] else none

/-- A concrete idle recording model without a recorder, used by the witnesses. -/
def recIdle : RecModel :=
  { appState := AppState.IDLE
    hasStream := true
    hasRecorder := false
    recordersStarted := 0
    stopsRequested := 0 }

/-- A concrete model with one started recorder and the state RECORDING, used by the
witnesses. -/
def recActive : RecModel :=
  { appState := AppState.RECORDING
    hasStream := true
    hasRecorder := true
    recordersStarted := 1
    stopsRequested := 0 }

/-- Splitting a png data URL on the comma recovers the base64 payload, provided the
payload itself contains no comma. -/
theorem jsSplitCommaSecond_dataUrl (d : String) (hd : ∀ c ∈ d.data, ¬(c == ',') = true) :
    jsSplitCommaSecond ("data:image/png;base64," ++ d) = d := by
  have h1 : ("data:image/png;base64," ++ d).data
      = "data:image/png;base64".data ++ ',' :: d.data := by
    rw [String.data_append]
    have h2 : "data:image/png;base64,".data = "data:image/png;base64".data ++ [','] := by
      decide
    rw [h2, List.append_assoc]
    rfl
  unfold jsSplitCommaSecond jsSplitComma
  rw [h1, List.splitOnP_first _ _ (by decide) ',' (by decide) d.data,
      List.splitOnP_eq_single _ _ hd]
  rfl

/-- A png data URL is a truthy string. -/
theorem dataUrl_truthy (d : String) :
    strTruthy (some ("data:image/png;base64," ++ d)) = true := by
  have h1 : ("data:image/png;base64," ++ d).data
      = 'd' :: ("ata:image/png;base64,".data ++ d.data) := by
    rw [String.data_append]
    rfl
  simp [strTruthy, h1]

/-- Claim C1: for every photo or image-file analysis, when the AnalysisClient call
settles the controller state is VIEWING; exactly one analyzeImage call is issued; on
success the analysis result is attached to the current asset; on failure a transient
error message is set and the current raw asset remains current, and for a fresh
capture the raw preview remains the displayed image. -/
theorem c1_analysis_settles_viewing (m : Model) (file : ImageFile)
    (idStr b64 : String) (now : Nat) (outcome : Except Unit AnalysisResult)
    (he : m.editedImage = none) :
    ((performAnalysis m file outcome).1.appState = AppState.VIEWING)
    ∧ ((performAnalysis m file outcome).2
        = [ClientCall.analyzeImage file.raw file.mimeType])
    ∧ (∀ a, outcome = Except.ok a →
        (performAnalysis m file outcome).1.currentFile
          = some { file with analysis := some a })
    ∧ (outcome = Except.error () →
        (performAnalysis m file outcome).1.error = some "Could not analyze image."
        ∧ (performAnalysis m file outcome).1.currentFile = m.currentFile)
    ∧ ((capturePhoto m idStr b64 now outcome).1.appState = AppState.VIEWING)
    ∧ (outcome = Except.error () →
        (capturePhoto m idStr b64 now outcome).1.currentFile
          = some (mkCapturedPhoto idStr b64 now)
        ∧ displayedImage (capturePhoto m idStr b64 now outcome).1 = some b64) := by
  cases outcome <;>
    simp [performAnalysis, capturePhoto, displayedImage, strTruthy, he, mkCapturedPhoto]

theorem c1_witness :
    (performAnalysis m0 f0 (Except.error ())).1.appState = AppState.VIEWING
    ∧ (performAnalysis m0 f0 (Except.error ())).1.error = some "Could not analyze image."
    ∧ displayedImage (capturePhoto m0 "1" "data:image/jpeg;base64,QUJD" 5
        (Except.error ())).1 = some "data:image/jpeg;base64,QUJD" := by
  have h := c1_analysis_settles_viewing m0 f0 "1" "data:image/jpeg;base64,QUJD" 5
    (Except.error ()) rfl
  exact ⟨h.1, (h.2.2.2.1 rfl).1, (h.2.2.2.2.2 rfl).2⟩

/-- Claim C2: append inserts the record at the front, the result never exceeds 50
entries, and appending to a list of length 50 drops the oldest (last) entry. -/
theorem c2_history_front_insert_bounded (item : HistoryItem) (prev : List HistoryItem) :
    addToHistory item prev = item :: prev.take 49
    ∧ (addToHistory item prev).length ≤ 50
    ∧ (prev.length = 50 → addToHistory item prev = item :: prev.dropLast) := by
  refine ⟨rfl, ?_, ?_⟩
  · exact List.length_take_le 50 (item :: prev)
  · intro h
    rw [show addToHistory item prev = item :: prev.take 49 from rfl,
        List.dropLast_eq_take, h]

theorem c2_witness :
    addToHistory f0 (List.replicate 50 f0) = f0 :: (List.replicate 50 f0).dropLast :=
  (c2_history_front_insert_bounded f0 (List.replicate 50 f0)).2.2 (by simp)

/-- Claim C5: a history commit happens exactly once per capture, on successful
analysis settlement: success commits exactly the enriched record at the front,
failure commits nothing, each analysis run issues exactly one client call, and
restoring from history neither touches the history nor issues any client call. -/
theorem c5_commit_once (m : Model) (file : ImageFile) (a : AnalysisResult)
    (item : HistoryItem) :
    ((performAnalysis m file (Except.ok a)).1.history
        = addToHistory { file with analysis := some a } m.history)
    ∧ ((performAnalysis m file (Except.error ())).1.history = m.history)
    ∧ ((performAnalysis m file (Except.ok a)).2
        = [ClientCall.analyzeImage file.raw file.mimeType])
    ∧ ((restoreHistoryItem m item).1.history = m.history)
    ∧ ((restoreHistoryItem m item).2 = []) :=
  ⟨rfl, rfl, rfl, rfl, rfl⟩

/-- Claim C6: submitting an edit while the state is already EDITING is ignored:
the model is unchanged and no editImage call is started. -/
theorem c6_no_concurrent_edit (m : Model) (outcome : Except Unit EditResult)
    (h : m.appState = AppState.EDITING) :
    submitEdit m outcome = (m, []) := by
  simp [submitEdit, editSubmitEnabled, h]

theorem c6_witness :
    submitEdit mEditing (Except.ok { imageData := some "QUJD" }) = (mEditing, []) :=
  c6_no_concurrent_edit mEditing (Except.ok { imageData := some "QUJD" }) rfl

/-- Claim C7: loading the persisted history yields the parsed sequence when the
stored value parses, and an empty history when the stored value is absent or does
not parse. -/
theorem c7_load_degrades_to_empty (parseJson : String → Option (List HistoryItem))
    (s : String) :
    (loadHistory parseJson none = [])
    ∧ (parseJson s = none → loadHistory parseJson (some s) = [])
    ∧ (∀ h, s.data.isEmpty = false → parseJson s = some h →
        loadHistory parseJson (some s) = h) := by
  refine ⟨rfl, ?_, ?_⟩
  · intro hp
    simp only [loadHistory, strTruthy]
    split
    · simp [hp]
    · rfl
  · intro h hs hp
    simp [loadHistory, strTruthy, hs, hp]

theorem c7_witness :
    (loadHistory parse0 none = [])
    ∧ (loadHistory parse0 (some "bad") = [])
    ∧ (loadHistory parse0 (some "ok") = [f0]) := by
  refine ⟨(c7_load_degrades_to_empty parse0 "bad").1,
    (c7_load_degrades_to_empty parse0 "bad").2.1 (by decide),
    (c7_load_degrades_to_empty parse0 "ok").2.2 [f0] (by decide) ?_⟩
  show (if ("ok" : String) = "ok" then some [f0] else none) = some [f0]
  simp

/-- Claim C8 as stated is false: stopRecording while not recording is a silent
no-op producing no error at all, and a direct startRecording while already
RECORDING starts a second recorder instead of being rejected. -/
theorem c8_counterexample :
    ((stopRecording recIdle).2 = none)
    ∧ ((stopRecording recIdle).2 ≠ some RecError.InvalidRecordingState)
    ∧ ((startRecording recActive).1.recordersStarted = 2) := by
  decide

/-- Claim C8 amended: no InvalidRecordingState failure exists; stopRecording while
not recording (or without a recorder) is a state-guarded silent no-op, neither
recording operation ever produces an error, and the capture control rejects a
re-start by routing the RECORDING state to stopRecording, so no second recorder is
started through it. -/
theorem c8_recording_guards (m : RecModel) :
    (m.appState ≠ AppState.RECORDING → stopRecording m = (m, none))
    ∧ (m.hasRecorder = false → stopRecording m = (m, none))
    ∧ ((stopRecording m).2 = none)
    ∧ ((startRecording m).2 = none)
    ∧ (m.appState = AppState.RECORDING →
        (handleCaptureVideo m).1.recordersStarted = m.recordersStarted
        ∧ (handleCaptureVideo m).2 = none) := by
  refine ⟨?_, ?_, ?_, ?_, ?_⟩
  · intro h
    simp [stopRecording, h]
  · intro h
    simp [stopRecording, h]
  · unfold stopRecording
    split <;> rfl
  · unfold startRecording
    split <;> rfl
  · intro h
    cases hr : m.hasRecorder <;>
      simp [handleCaptureVideo, stopRecording, h, hr]

theorem c8_witness :
    stopRecording recIdle = (recIdle, none)
    ∧ (handleCaptureVideo recActive).1.recordersStarted = 1 := by
  refine ⟨(c8_recording_guards recIdle).1 (by decide), ?_⟩
  exact ((c8_recording_guards recActive).2.2.2.2 rfl).1

/-- Claim C9 is right and the code is wrong: after the camera effect responds to the
RECORDING state the device is no longer held, even though startCamera has a guard
that explicitly allows RECORDING, while in IDLE the device is held. -/
theorem c9_camera_released_while_recording :
    cameraHeldAfterEffect AppState.RECORDING true = false
    ∧ startCameraGuardAllows AppState.RECORDING = true
    ∧ cameraHeldAfterEffect AppState.IDLE true = true := by
  decide

/-- Claim C3: when an edit settles the state is VIEWING; truthy image data replaces
the displayed image with the new png data URL; a textual refusal, an empty result or
a failure sets the transient error and leaves the displayed image unchanged. -/
theorem c3_edit_settles_viewing (m : Model) (file : ImageFile)
    (outcome : Except Unit EditResult)
    (hc : m.currentFile = some file) (hp : (jsTrim m.editPrompt).data.isEmpty = false)
    (ht : file.type = MediaKind.image) :
    ((handleEditSubmit m outcome).1.appState = AppState.VIEWING)
    ∧ (∀ res, outcome = Except.ok res → strTruthy res.imageData = true →
        (handleEditSubmit m outcome).1.editedImage
            = some ("data:image/png;base64," ++ res.imageData.getD "")
        ∧ displayedImage (handleEditSubmit m outcome).1
            = some ("data:image/png;base64," ++ res.imageData.getD ""))
    ∧ (∀ res, outcome = Except.ok res → strTruthy res.imageData = false →
          strTruthy res.textResponse = true →
        (handleEditSubmit m outcome).1.error = res.textResponse
        ∧ (handleEditSubmit m outcome).1.editedImage = m.editedImage
        ∧ displayedImage (handleEditSubmit m outcome).1 = displayedImage m)
    ∧ (∀ res, outcome = Except.ok res → strTruthy res.imageData = false →
          strTruthy res.textResponse = false →
        (handleEditSubmit m outcome).1.error = some "No changes generated."
        ∧ (handleEditSubmit m outcome).1.editedImage = m.editedImage
        ∧ displayedImage (handleEditSubmit m outcome).1 = displayedImage m)
    ∧ (outcome = Except.error () →
        (handleEditSubmit m outcome).1.error = some "Failed to edit image."
        ∧ (handleEditSubmit m outcome).1.editedImage = m.editedImage
        ∧ displayedImage (handleEditSubmit m outcome).1 = displayedImage m) := by
  refine ⟨?_, ?_, ?_, ?_, ?_⟩
  · cases outcome <;> simp [handleEditSubmit, hc, hp, ht]
  · intro res ho himg
    subst ho
    simp [handleEditSubmit, hc, hp, ht, himg, displayedImage, dataUrl_truthy]
  · intro res ho himg htxt
    subst ho
    simp [handleEditSubmit, hc, hp, ht, himg, htxt, displayedImage]
  · intro res ho himg htxt
    subst ho
    simp [handleEditSubmit, hc, hp, ht, himg, htxt, displayedImage]
  · intro ho
    subst ho
    simp [handleEditSubmit, hc, hp, ht, displayedImage]

theorem c3_witness :
    (handleEditSubmit mView (Except.ok { imageData := some "QUJE" })).1.appState
        = AppState.VIEWING
    ∧ (handleEditSubmit mView (Except.ok { imageData := some "QUJE" })).1.editedImage
        = some ("data:image/png;base64," ++ "QUJE")
    ∧ (handleEditSubmit mView (Except.error ())).1.error
        = some "Failed to edit image." := by
  have h1 := c3_edit_settles_viewing mView f0 (Except.ok { imageData := some "QUJE" })
    rfl (by decide) rfl
  have h2 := c3_edit_settles_viewing mView f0 (Except.error ()) rfl (by decide) rfl
  exact ⟨h1.1, (h1.2.1 _ rfl (by decide)).1, (h2.2.2.2.2 rfl).1⟩

/-- Claim C4: edits chain through a single edit source: with no accepted edit the
payload sent is the raw payload of the current asset; an accepted edit updates the
source, so a following edit operates on the accepted image data; failures and
refusals leave the source unchanged; reset and restore clear it back to the
original. -/
theorem c4_edit_source_chain (m : Model) (file : ImageFile)
    (o o2 : Except Unit EditResult) (item : HistoryItem) (p2 : String)
    (hc : m.currentFile = some file) (hp : (jsTrim m.editPrompt).data.isEmpty = false)
    (ht : file.type = MediaKind.image) :
    (m.editedImage = none →
      (handleEditSubmit m o).2
        = [ClientCall.editImage file.raw "image/png" m.editPrompt])
    ∧ (∀ res, o = Except.ok res → strTruthy res.imageData = false →
        (handleEditSubmit m o).1.editedImage = m.editedImage)
    ∧ (o = Except.error () → (handleEditSubmit m o).1.editedImage = m.editedImage)
    ∧ (∀ res d, o = Except.ok res → res.imageData = some d →
        (∀ c ∈ d.data, ¬(c == ',') = true) → d.data.isEmpty = false →
        (jsTrim p2).data.isEmpty = false →
        (handleEditSubmit { (handleEditSubmit m o).1 with editPrompt := p2 } o2).2
          = [ClientCall.editImage d "image/png" p2])
    ∧ ((resetApp m).editedImage = none)
    ∧ ((restoreHistoryItem m item).1.editedImage = none) := by
  refine ⟨?_, ?_, ?_, ?_, rfl, rfl⟩
  · intro he
    cases o <;> simp [handleEditSubmit, hc, hp, ht, he, strTruthy]
  · intro res ho himg
    subst ho
    simp only [handleEditSubmit, hc, hp, ht]
    simp [himg]
    split <;> rfl
  · intro ho
    subst ho
    simp [handleEditSubmit, hc, hp, ht]
  · intro res d ho himg hcomma hne hp2
    subst ho
    have hsd : strTruthy (some d) = true := by simp [strTruthy, hne]
    have hm1 : (handleEditSubmit m (Except.ok res)).1
        = { m with error := none,
                   editedImage := some ("data:image/png;base64," ++ d),
                   editPrompt := "",
                   appState := AppState.VIEWING } := by
      simp [handleEditSubmit, hc, hp, ht, himg, hsd]
    rw [hm1]
    cases o2 <;>
      simp [handleEditSubmit, hc, hp2, ht, dataUrl_truthy,
        jsSplitCommaSecond_dataUrl d hcomma]

theorem c4_witness :
    ((handleEditSubmit mView (Except.ok { imageData := some "QUJE" })).2
        = [ClientCall.editImage "QUJD" "image/png" "make it blue"])
    ∧ ((handleEditSubmit
          { (handleEditSubmit mView (Except.ok { imageData := some "QUJE" })).1 with
            editPrompt := "add a hat" } (Except.error ())).2
        = [ClientCall.editImage "QUJE" "image/png" "add a hat"])
    ∧ ((resetApp mView).editedImage = none)
    ∧ ((restoreHistoryItem mView f0).1.editedImage = none) := by
  have h := c4_edit_source_chain mView f0 (Except.ok { imageData := some "QUJE" })
    (Except.error ()) f0 "add a hat" rfl (by decide) rfl
  exact ⟨h.1 rfl, h.2.2.2.1 _ "QUJE" rfl rfl (by decide) (by decide) (by decide),
    h.2.2.2.2.1, h.2.2.2.2.2⟩

/-- Claim C10: every edit request declares the mime type image/png regardless of the
actual mime type of the current asset, while a captured photo carries the mime type
image/jpeg, which differs from image/png. -/
theorem c10_edit_mime_always_png (m : Model) (file : ImageFile)
    (outcome : Except Unit EditResult) (idStr b64 : String) (now : Nat)
    (hc : m.currentFile = some file) (hp : (jsTrim m.editPrompt).data.isEmpty = false)
    (ht : file.type = MediaKind.image) :
    (∃ raw, (handleEditSubmit m outcome).2
        = [ClientCall.editImage raw "image/png" m.editPrompt])
    ∧ ((mkCapturedPhoto idStr b64 now).mimeType = "image/jpeg")
    ∧ (("image/jpeg" : String) ≠ "image/png") := by
  refine ⟨?_, rfl, by decide⟩
  refine ⟨if strTruthy m.editedImage then jsSplitCommaSecond (m.editedImage.getD "")
    else file.raw, ?_⟩
  cases outcome <;> simp [handleEditSubmit, hc, hp, ht]

theorem c10_witness :
    (∃ raw, (handleEditSubmit mView (Except.error ())).2
        = [ClientCall.editImage raw "image/png" mView.editPrompt])
    ∧ (mkCapturedPhoto "1" "data:image/jpeg;base64,QUJD" 0).mimeType = "image/jpeg" := by
  have h := c10_edit_mime_always_png mView f0 (Except.error ())
    "1" "data:image/jpeg;base64,QUJD" 0 rfl (by decide) rfl
  exact ⟨h.1, h.2.1⟩

end NanoLens
